import Mathlib

/-!
Verification development for the TIFF-to-JPEG conversion service
(`src/tiff2jpg.py`).  The Python source is shallowly embedded: pure helpers
(`allowed_file`, the filename `rsplit`, the size formatting) become Lean
functions on `String` / `List Char` / `Nat`; the filesystem becomes an
association list from paths to byte sizes together with a log of the
`os.remove` calls issued; the effectful collaborators (Werkzeug's
`secure_filename`, Pillow's decode/encode, `file.save` and `send_file`
raising) become explicit parameters and oracle records, so each pipeline is
a total function from request, oracle and initial filesystem to the HTTP
response and the final filesystem state.
-/

set_option autoImplicit false

namespace Tiff2Jpg

/-- Input size cap, `MAX_INPUT_FILE_SIZE = 1 * 1024 * 1024 * 1024` (1 GiB). -/
def MAX_INPUT_FILE_SIZE : Nat := 1 * 1024 * 1024 * 1024

/-- Output size cap, `MAX_OUTPUT_FILE_SIZE = 10 * 1024 * 1024` (10 MiB). -/
def MAX_OUTPUT_FILE_SIZE : Nat := 10 * 1024 * 1024

/-- Staging directory for uploads, `UPLOAD_FOLDER = 'uploads'`. -/
def UPLOAD_FOLDER : String := "uploads"

/-- Directory for converted output, `OUTPUT_FOLDER = 'converted'`. -/
def OUTPUT_FOLDER : String := "converted"

/-- An uploaded byte stream with an explicit read position, as manipulated by
`check_file_size` via `seek`/`tell`. -/
structure FileStream where
  content : List Nat
  pos : Nat
deriving DecidableEq

/-- Model of `file.seek(0, os.SEEK_END)`. -/
def seekEnd (f : FileStream) : FileStream :=
  { f with pos := f.content.length }

/-- Model of `file.tell()`. -/
def tell (f : FileStream) : Nat :=
  f.pos

/-- Model of `file.seek(0)`. -/
def seekStart (f : FileStream) : FileStream :=
  { f with pos := 0 }

/-- Reading the remainder of the stream from its current position. -/
def readAll (f : FileStream) : List Nat :=
  f.content.drop f.pos

/-- Embedding of `check_file_size` (src lines 33-38): seek to the end, record
the length, seek back to the start, and compare with the input cap.  The
returned stream is the stream after the seeks. -/
def check_file_size (f : FileStream) : Bool × FileStream :=
  let f1 := seekEnd f
  let size := tell f1
  let f2 := seekStart f1
  (decide (size ≤ MAX_INPUT_FILE_SIZE), f2)

/-- Embedding of Python's `s.rsplit('.', 1)` on a character list: returns the
segment before the last `'.'` together with `some` of the segment after it,
or the whole string and `none` when no `'.'` occurs. -/
def rsplitDot : List Char → List Char × Option (List Char)
  | [] => ([], none)
  | c :: rest =>
    match rsplitDot rest with
    | (b, some t) => (c :: b, some t)
    | (b, none) => if c = '.' then ([], some rest) else (c :: b, none)

/-- The characters after the last `'.'`, if any (`rsplit('.', 1)[1]`). -/
def afterLastDot (s : List Char) : Option (List Char) :=
  (rsplitDot s).2

/-- Embedding of `filename.rsplit('.', 1)[0]`: the part before the last dot,
or the whole filename when it has no dot. -/
def stem (s : String) : String :=
  String.mk (rsplitDot s.toList).1

/-- Embedding of `allowed_file` (src lines 29-31):
`'.' in filename and filename.rsplit('.', 1)[1].lower() in {'tif', 'tiff'}`.
Python's `str.lower` is modelled on the ASCII range by `Char.toLower`. -/
def allowed_file (filename : String) : Bool :=
  filename.toList.contains '.' &&
    (match afterLastDot filename.toList with
     | some ext =>
         (ext.map Char.toLower == ['t', 'i', 'f']) ||
           (ext.map Char.toLower == ['t', 'i', 'f', 'f'])
     | none => false)

/-- The filesystem: a list of `(path, byte size)` entries, most recent writer
first. -/
abbrev FS : Type := List (String × Nat)

/-- Whether a path exists on the filesystem (`os.path.exists`). -/
def fsExists (p : String) (fs : FS) : Bool :=
  fs.any (fun e => e.1 == p)

/-- Writing a file (`file.save` / `img.save`): last writer wins. -/
def fsSave (p : String) (sz : Nat) (fs : FS) : FS :=
  (p, sz) :: fs.filter (fun e => e.1 != p)

/-- Size of an existing file (`os.path.getsize`); `0` for a missing path. -/
def fsSize (p : String) (fs : FS) : Nat :=
  match fs.find? (fun e => e.1 == p) with
  | some e => e.2
  | none => 0

/-- Pipeline bookkeeping: the filesystem, whether some `os.remove` was issued
against an absent path (which would raise in Python), and the log of all
paths passed to `os.remove`. -/
structure RunState where
  fs : FS
  badRemove : Bool
  removes : List String
deriving DecidableEq

/-- Model of `os.remove(p)`: drops `p` from the filesystem, flags the call
when `p` was absent (Python would raise `FileNotFoundError`), and logs it. -/
def osRemove (p : String) (st : RunState) : RunState :=
  { fs := st.fs.filter (fun e => e.1 != p)
    badRemove := st.badRemove || !(fsExists p st.fs)
    removes := st.removes ++ [p] }

/-- Model of a file write inside a pipeline run. -/
def osSave (p : String) (sz : Nat) (st : RunState) : RunState :=
  { st with fs := fsSave p sz st.fs }

/-- Python's `f'{bytes/(1024*1024):.1f}'`: `bytes/(1024*1024)` is an exact
dyadic rational for every byte count in range, and `:.1f` rounds it to one
decimal with ties to even; both are computed here exactly on `Nat`. -/
def fmt1 (bytes : Nat) : String :=
  let num := bytes * 10
  let q := num / 1048576
  let r := num % 1048576
  let t :=
    if r < 524288 then q
    else if 524288 < r then q + 1
    else if q % 2 = 0 then q else q + 1
  toString (t / 10) ++ "." ++ toString (t % 10)

/-- Python's `round(bytes / (1024 * 1024), 2)` as an exact rational: round
half to even on hundredths of a MiB. -/
def round2MB (bytes : Nat) : ℚ :=
  let num := bytes * 100
  let q := num / 1048576
  let r := num % 1048576
  let t :=
    if r < 524288 then q
    else if 524288 < r then q + 1
    else if q % 2 = 0 then q else q + 1
  (t : ℚ) / 100

/-- Oracle for the Pillow calls inside `convert_tif_to_jpg`: whether
`Image.open` decodes the staged input, whether `img.save` encodes it, and the
byte size of the JPEG it writes when it does. -/
structure ImgOracle where
  decodeOk : Bool
  encodeOk : Bool
  encodedSize : Nat
deriving DecidableEq

/-- The body of the `try` block of `convert_tif_to_jpg` (src lines 43-48):
raises (`.error`) when the input cannot be opened or the encode fails, and
otherwise writes the JPEG at `output_path`. -/
def convertBody (o : ImgOracle) (input_path output_path : String) (fs : FS) :
    Except Unit FS :=
  if fsExists input_path fs && o.decodeOk then
    if o.encodeOk then .ok (fsSave output_path o.encodedSize fs)
    else .error ()
  else .error ()

/-- Embedding of `convert_tif_to_jpg` (src lines 40-53): the `try`/`except`
collapses every raise of the body to the boolean `false`. -/
def convert_tif_to_jpg (o : ImgOracle) (input_path output_path : String)
    (fs : FS) : Bool × FS :=
  match convertBody o input_path output_path fs with
  | .ok fs' => (true, fs')
  | .error _ => (false, fs)

/-- An uploaded file as the single-file endpoint sees it: the multipart
filename plus the byte stream. -/
structure UpFile where
  filename : String
  content : List Nat
  pos : Nat
deriving DecidableEq

/-- Oracle for the effectful steps of one single-file run: whether
`file.save` raises (after having written the staged bytes), the Pillow
oracle, and whether `os.path.getsize`/`send_file` raise after a successful
conversion. -/
structure ConvOracle where
  saveRaises : Bool
  img : ImgOracle
  sendRaises : Bool
deriving DecidableEq

/-- Response of the `/convert` endpoint: a JSON error with an HTTP status, or
`send_file` of the converted JPEG (HTTP 200) with its download name. -/
inductive ConvResponse where
  | jsonErr (status : Nat) (msg : String)
  | fileOk (path : String) (downloadName : String)
deriving DecidableEq

/-- HTTP status of a `/convert` response (`send_file` responds 200). -/
def statusOf : ConvResponse → Nat
  | .jsonErr s _ => s
  | .fileOk _ _ => 200

/-- Whether a single-file request passes the three validation checks of
src lines 70-90 (field present, non-empty filename, allowed extension,
input size within the cap). -/
def singleValid (req : Option UpFile) : Bool :=
  match req with
  | none => false
  | some f =>
      (!(f.filename == "")) && allowed_file f.filename &&
        (check_file_size ⟨f.content, f.pos⟩).1

/-- Embedding of the `/convert` endpoint `convert_image` (src lines 67-131).
`sec` is Werkzeug's `secure_filename`, an external pure sanitizer.  A raising
`file.save` is modelled as having staged the bytes before failing, so that
the `except` handler's guarded cleanup is exercised. -/
def convert_image (sec : String → String) (req : Option UpFile)
    (o : ConvOracle) (fs0 : FS) : ConvResponse × RunState :=
  match req with
  | none => (.jsonErr 400 "No file provided", ⟨fs0, false, []⟩)
  | some file =>
    if file.filename == "" then (.jsonErr 400 "No file selected", ⟨fs0, false, []⟩)
    else if !(allowed_file file.filename) then
      (.jsonErr 400 "Invalid file type. Only TIF/TIFF files are allowed",
        ⟨fs0, false, []⟩)
    else
      let checked := check_file_size ⟨file.content, file.pos⟩
      if !checked.1 then
        (.jsonErr 400 "File size exceeds maximum limit of 1024.0MB",
          ⟨fs0, false, []⟩)
      else
        let filename := sec file.filename
        let input_path := UPLOAD_FOLDER ++ "/" ++ filename
        let output_filename := stem filename ++ ".jpg"
        let output_path := OUTPUT_FOLDER ++ "/" ++ output_filename
        let st1 : RunState := osSave input_path (readAll checked.2).length ⟨fs0, false, []⟩
        if o.saveRaises then
          let st2 := if fsExists input_path st1.fs then osRemove input_path st1 else st1
          (.jsonErr 500 "Internal server error", st2)
        else
          let conv := convert_tif_to_jpg o.img input_path output_path st1.fs
          if conv.1 then
            let st2 : RunState := { st1 with fs := conv.2 }
            let st3 := osRemove input_path st2
            let output_size := fsSize output_path st3.fs
            if MAX_OUTPUT_FILE_SIZE < output_size then
              let st4 := osRemove output_path st3
              (.jsonErr 400
                ("Output file size (" ++ fmt1 output_size ++
                  "MB) exceeds limit of 10.0MB"), st4)
            else if o.sendRaises then
              let st4 := if fsExists input_path st3.fs then osRemove input_path st3 else st3
              (.jsonErr 500 "Internal server error", st4)
            else
              (.fileOk output_path output_filename, st3)
          else
            let st2 := if fsExists input_path st1.fs then osRemove input_path st1 else st1
            (.jsonErr 500 "Conversion failed", st2)

/-- One file of a batch request: the uploaded stream plus the oracle for its
effectful steps. -/
structure BFile where
  filename : String
  content : List Nat
  pos : Nat
  saveRaises : Bool
  img : ImgOracle
deriving DecidableEq

/-- One entry of `successful_conversions`. -/
structure SuccessEntry where
  filename : String
  output_path : String
  output_size_mb : ℚ
deriving DecidableEq

/-- One entry of `failed_conversions`. -/
structure FailureEntry where
  filename : String
  reason : String
deriving DecidableEq

/-- Processing of one file inside the batch loop (src lines 157-222): the
per-file outcome (exactly one of a success entry or a failure entry) together
with the updated run state. -/
def batchStep (sec : String → String) (f : BFile) (st : RunState) :
    (Option SuccessEntry × Option FailureEntry) × RunState :=
  if f.filename == "" then
    ((none, some ⟨"Unnamed", "File has no name"⟩), st)
  else if !(allowed_file f.filename) then
    ((none, some ⟨f.filename, "Invalid file type"⟩), st)
  else
    let checked := check_file_size ⟨f.content, f.pos⟩
    if !checked.1 then
      ((none, some ⟨f.filename, "File size exceeds 1024.0MB limit"⟩), st)
    else
      let filename := sec f.filename
      let input_path := UPLOAD_FOLDER ++ "/" ++ filename
      let output_filename := stem filename ++ ".jpg"
      let output_path := OUTPUT_FOLDER ++ "/" ++ output_filename
      let st1 := osSave input_path (readAll checked.2).length st
      if f.saveRaises then
        let st2 := if fsExists input_path st1.fs then osRemove input_path st1 else st1
        ((none, some ⟨f.filename, "Processing error"⟩), st2)
      else
        let conv := convert_tif_to_jpg f.img input_path output_path st1.fs
        if conv.1 then
          let st2 : RunState := { st1 with fs := conv.2 }
          let output_size := fsSize output_path st2.fs
          if output_size ≤ MAX_OUTPUT_FILE_SIZE then
            let st3 := if fsExists input_path st2.fs then osRemove input_path st2 else st2
            ((some ⟨f.filename, output_path, round2MB output_size⟩, none), st3)
          else
            let st3 := osRemove output_path st2
            let st4 := if fsExists input_path st3.fs then osRemove input_path st3 else st3
            ((none, some ⟨f.filename,
                "Output file size (" ++ fmt1 output_size ++ "MB) exceeds limit"⟩),
              st4)
        else
          let st2 := if fsExists input_path st1.fs then osRemove input_path st1 else st1
          ((none, some ⟨f.filename, "Conversion failed"⟩), st2)

/-- The per-file outcome of `batchStep`, which does not depend on the run
state it starts from (proved below). -/
def fileOutcome (sec : String → String) (f : BFile) :
    Option SuccessEntry × Option FailureEntry :=
  (batchStep sec f ⟨[], false, []⟩).1

/-- The batch loop (src lines 157-222): every file is processed in order and
its outcome appended to the corresponding sequence. -/
def runBatch (sec : String → String) :
    List BFile → RunState → List SuccessEntry × List FailureEntry × RunState
  | [], st => ([], [], st)
  | f :: rest, st =>
    let step := batchStep sec f st
    let r := runBatch sec rest step.2
    (step.1.1.toList ++ r.1, step.1.2.toList ++ r.2.1, r.2.2)

/-- Response of the `/batch-convert` endpoint: a JSON error, or the
success/failure report with its HTTP status. -/
inductive BatchOut where
  | errJson (status : Nat) (msg : String)
  | result (status : Nat) (successes : List SuccessEntry) (failures : List FailureEntry)
deriving DecidableEq

/-- HTTP status of a `/batch-convert` response. -/
def statusOfBatch : BatchOut → Nat
  | .errJson s _ => s
  | .result s _ _ => s

/-- Embedding of the `/batch-convert` endpoint `batch_convert_images`
(src lines 133-225). -/
def batch_convert_images (sec : String → String) (req : Option (List BFile))
    (fs0 : FS) : BatchOut × RunState :=
  match req with
  | none => (.errJson 400 "No files provided", ⟨fs0, false, []⟩)
  | some files =>
    if files.isEmpty then (.errJson 400 "No files selected", ⟨fs0, false, []⟩)
    else if 150 < files.length then
      (.errJson 400 "Maximum 150 files allowed per batch", ⟨fs0, false, []⟩)
    else
      let r := runBatch sec files ⟨fs0, false, []⟩
      (.result (if r.1.isEmpty then 400 else 200) r.1 r.2.1, r.2.2)

/-- Modelled from Pillow's `Image.thumbnail` rounding helper `round_aspect`
(the library call at src line 46): pick whichever of floor and ceiling
minimises `key` (floor on ties, as Python's `min` keeps the first minimum)
and clamp the result to at least 1. -/
def roundAspect (q : ℚ) (key : ℕ → ℚ) : ℕ :=
  let f := (⌊q⌋).toNat
  let c := (⌈q⌉).toNat
  max (if key f ≤ key c then f else c) 1

/-- Modelled from Pillow's `Image.thumbnail` target-size computation for a
`w × h` image and bounding box `x × y`: no change when the image already
fits, otherwise scale the constrained side down to the box preserving the
aspect ratio, rounding the free side.  Pillow computes with IEEE doubles;
the exact rationals used here agree except possibly on which of floor or
ceiling a near-tie rounds to, which the theorems below do not depend on. -/
def thumbnailSize (w h x y : ℕ) : ℕ × ℕ :=
  if w ≤ x ∧ h ≤ y then (w, h)
  else
    let aspect : ℚ := (w : ℚ) / (h : ℚ)
    if aspect ≤ (x : ℚ) / (y : ℚ) then
      (roundAspect ((y : ℚ) * aspect) (fun n => |aspect - (n : ℚ) / (y : ℚ)|), y)
    else
      (x, roundAspect ((x : ℚ) / aspect)
        (fun n => if n = 0 then 0 else |aspect - (x : ℚ) / (n : ℚ)|))

/-- The dimension policy of `convert_tif_to_jpg` (src lines 45-46): thumbnail
only when the longer side exceeds the longer side of `(2800, 2800)`. -/
def convertSize (w h : ℕ) : ℕ × ℕ :=
  if 2800 < max w h then thumbnailSize w h 2800 2800 else (w, h)

end Tiff2Jpg

namespace Tiff2Jpg

lemma fsExists_cons (e : String × Nat) (p : String) (fs : FS) :
    fsExists p (e :: fs) = ((e.1 == p) || fsExists p fs) := by
  simp [fsExists]

lemma fsExists_save_self (p : String) (sz : Nat) (fs : FS) :
    fsExists p (fsSave p sz fs) = true := by
  simp [fsExists, fsSave]

lemma fsSize_save_self (p : String) (sz : Nat) (fs : FS) :
    fsSize p (fsSave p sz fs) = sz := by
  simp [fsSize, fsSave, List.find?]

lemma fsExists_filter_self (p : String) (fs : FS) :
    fsExists p (fs.filter (fun e => e.1 != p)) = false := by
  induction fs with
  | nil => rfl
  | cons e rest ih =>
    obtain ⟨k, v⟩ := e
    by_cases he : k = p
    · subst he
      simpa [List.filter_cons] using ih
    · have h1 : (k != p) = true := by simp [he]
      have h2 : (k == p) = false := by simp [he]
      simp [List.filter_cons, h1, fsExists_cons, h2, ih]

lemma fsExists_filter_ne {p q : String} (h : q ≠ p) (fs : FS) :
    fsExists q (fs.filter (fun e => e.1 != p)) = fsExists q fs := by
  induction fs with
  | nil => rfl
  | cons e rest ih =>
    obtain ⟨k, v⟩ := e
    by_cases he : k = p
    · subst he
      have hq : (k == q) = false := by simp; exact fun hh => h hh.symm
      simp [List.filter_cons, fsExists_cons, hq, ih]
    · have h1 : (k != p) = true := by simp [he]
      simp [List.filter_cons, h1, fsExists_cons, ih]

lemma fsExists_save_ne {p q : String} (h : q ≠ p) (sz : Nat) (fs : FS) :
    fsExists q (fsSave p sz fs) = fsExists q fs := by
  have hq : (p == q) = false := by simp; exact fun hh => h hh.symm
  simp only [fsSave, fsExists_cons, hq, Bool.false_or]
  exact fsExists_filter_ne h fs

lemma fsSize_cons (e : String × Nat) (q : String) (fs : FS) :
    fsSize q (e :: fs) = if (e.1 == q) = true then e.2 else fsSize q fs := by
  simp only [fsSize, List.find?]
  by_cases h : (e.1 == q) = true <;> simp [h]

lemma fsSize_filter_ne {p q : String} (h : q ≠ p) (fs : FS) :
    fsSize q (fs.filter (fun e => e.1 != p)) = fsSize q fs := by
  induction fs with
  | nil => rfl
  | cons e rest ih =>
    obtain ⟨k, v⟩ := e
    by_cases he : k = p
    · subst he
      have hq : (k == q) = false := by simp; exact fun hh => h hh.symm
      rw [List.filter_cons]
      simp only [bne_self_eq_false, Bool.false_eq_true, if_false]
      rw [ih, fsSize_cons]
      simp [hq]
    · have h1 : (k != p) = true := by simp [he]
      rw [List.filter_cons]
      simp only [h1, if_true]
      rw [fsSize_cons, fsSize_cons, ih]

lemma fsSize_save_ne {p q : String} (h : q ≠ p) (sz : Nat) (fs : FS) :
    fsSize q (fsSave p sz fs) = fsSize q fs := by
  have hq : (p == q) = false := by simp; exact fun hh => h hh.symm
  rw [fsSave, fsSize_cons]
  simp only [hq, Bool.false_eq_true, if_false]
  exact fsSize_filter_ne h fs

lemma data_append (s t : String) : (s ++ t).data = s.data ++ t.data := rfl

lemma upload_ne_output (a b : String) :
    (UPLOAD_FOLDER ++ "/" ++ a) ≠ (OUTPUT_FOLDER ++ "/" ++ b) := by
  intro h
  have h2 := congrArg String.data h
  rw [data_append, data_append, data_append, data_append] at h2
  have hu : (UPLOAD_FOLDER).data = ['u', 'p', 'l', 'o', 'a', 'd', 's'] := rfl
  have hc : (OUTPUT_FOLDER).data = ['c', 'o', 'n', 'v', 'e', 'r', 't', 'e', 'd'] := rfl
  rw [hu, hc] at h2
  simp at h2

end Tiff2Jpg

namespace Tiff2Jpg

lemma rsplitDot_eq_none_iff (s : List Char) : (rsplitDot s).2 = none ↔ '.' ∉ s := by
  induction s with
  | nil => simp [rsplitDot]
  | cons c rest ih =>
    rcases hr : rsplitDot rest with ⟨b, o⟩
    rw [hr] at ih
    cases o with
    | some t =>
      simp only [rsplitDot, hr]
      simp at ih
      simp [List.mem_cons, ih]
    | none =>
      by_cases hc : c = '.'
      · simp [rsplitDot, hr, hc]
      · simp only [rsplitDot, hr, if_neg hc]
        simp at ih
        simp [List.mem_cons, ih, Ne.symm hc, hc]

lemma rsplitDot_eq_some (s : List Char) :
    ∀ b t, rsplitDot s = (b, some t) → s = b ++ '.' :: t ∧ '.' ∉ t := by
  induction s with
  | nil => intro b t h; simp [rsplitDot] at h
  | cons c rest ih =>
    intro b t h
    rcases hr : rsplitDot rest with ⟨b', o⟩
    cases o with
    | some t' =>
      rw [rsplitDot, hr] at h
      simp at h
      obtain ⟨hb, ht⟩ := h
      obtain ⟨h1, h2⟩ := ih b' t' hr
      subst hb; subst ht
      exact ⟨by rw [h1]; rfl, h2⟩
    | none =>
      rw [rsplitDot, hr] at h
      by_cases hc : c = '.'
      · subst hc
        simp at h
        obtain ⟨hb, ht⟩ := h
        subst hb
        subst ht
        exact ⟨rfl, (rsplitDot_eq_none_iff _).1 (by rw [hr])⟩
      · simp [hc] at h

lemma rsplitDot_append (a t : List Char) (h : '.' ∉ t) :
    rsplitDot (a ++ '.' :: t) = (a, some t) := by
  induction a with
  | nil =>
    rcases hr : rsplitDot t with ⟨b, o⟩
    have ho : o = none := by
      have := (rsplitDot_eq_none_iff t).2 h
      rw [hr] at this
      exact this
    subst ho
    simp [rsplitDot, hr]
  | cons c a ih =>
    simp [rsplitDot, ih]

/-- Claim C8: `allowed_file f` is true iff `f` contains a `'.'` and the
lowercased suffix after the last `'.'` is `tif` or `tiff`; a filename with no
`'.'` is rejected. -/
theorem allowed_file_characterization (filename : String) :
    (allowed_file filename = true ↔
      ∃ a b : List Char, filename.toList = a ++ '.' :: b ∧ '.' ∉ b ∧
        (b.map Char.toLower = ['t', 'i', 'f'] ∨
          b.map Char.toLower = ['t', 'i', 'f', 'f']))
    ∧ ('.' ∉ filename.toList → allowed_file filename = false) := by
  constructor
  · constructor
    · intro h
      unfold allowed_file afterLastDot at h
      rcases hr : rsplitDot filename.toList with ⟨b0, o⟩
      rw [hr] at h
      cases o with
      | none => simp at h
      | some ext =>
        obtain ⟨h1, h2⟩ := rsplitDot_eq_some filename.toList b0 ext hr
        refine ⟨b0, ext, h1, h2, ?_⟩
        simp at h
        rcases h.2 with h3 | h3
        · left; exact h3
        · right; exact h3
    · rintro ⟨a, b, h1, h2, h3⟩
      unfold allowed_file afterLastDot
      rw [h1, rsplitDot_append a b h2]
      have hc : ('.' : Char) ∈ a ++ '.' :: b := by simp
      rcases h3 with h3 | h3 <;> simp [h3, hc]
  · intro h
    unfold allowed_file afterLastDot
    have hn := (rsplitDot_eq_none_iff filename.toList).2 h
    rcases hr : rsplitDot filename.toList with ⟨b, o⟩
    rw [hr] at hn
    subst hn
    simp [h]

end Tiff2Jpg

namespace Tiff2Jpg

lemma check_file_size_spec (f : FileStream) :
    ((check_file_size f).1 = true ↔ f.content.length ≤ MAX_INPUT_FILE_SIZE)
    ∧ (check_file_size f).2.pos = 0
    ∧ (check_file_size f).2.content = f.content
    ∧ readAll (check_file_size f).2 = f.content := by
  simp [check_file_size, seekEnd, tell, seekStart, readAll]

/-- Claim C9: the input-size check accepts exactly the streams of at most
1 GiB, and it leaves the read position at the start, so a subsequent full
read returns the entire content. -/
theorem check_file_size_characterization (f : FileStream) :
    ((check_file_size f).1 = true ↔ f.content.length ≤ MAX_INPUT_FILE_SIZE)
    ∧ (check_file_size f).2.pos = 0
    ∧ (check_file_size f).2.content = f.content
    ∧ readAll (check_file_size f).2 = f.content :=
  check_file_size_spec f

lemma convert_tif_to_jpg_pos (o : ImgOracle) (ip op : String) (fs : FS)
    (h : (fsExists ip fs && o.decodeOk && o.encodeOk) = true) :
    convert_tif_to_jpg o ip op fs = (true, fsSave op o.encodedSize fs) := by
  simp only [Bool.and_eq_true] at h
  simp [convert_tif_to_jpg, convertBody, h.1.1, h.1.2, h.2]

lemma convert_tif_to_jpg_neg (o : ImgOracle) (ip op : String) (fs : FS)
    (h : (fsExists ip fs && o.decodeOk && o.encodeOk) = false) :
    convert_tif_to_jpg o ip op fs = (false, fs) := by
  unfold convert_tif_to_jpg convertBody
  by_cases h1 : (fsExists ip fs && o.decodeOk) = true
  · have h2 : o.encodeOk = false := by
      rcases Bool.eq_false_or_eq_true o.encodeOk with h2 | h2
      · rw [h1, h2] at h; simp at h
      · exact h2
    simp [h1, h2]
  · simp only [Bool.not_eq_true] at h1
    simp [h1]

/-- Claim C7: `convert_tif_to_jpg` returns `true` exactly when decode and
encode both succeed (in which case the output file exists), and any raise of
the body is caught and collapsed to `false`. -/
theorem convert_tif_to_jpg_boundary (o : ImgOracle) (ip op : String) (fs : FS) :
    ((convert_tif_to_jpg o ip op fs).1 = true ↔
      (fsExists ip fs && o.decodeOk && o.encodeOk) = true)
    ∧ ((convert_tif_to_jpg o ip op fs).1 = true →
      fsExists op (convert_tif_to_jpg o ip op fs).2 = true)
    ∧ (∀ e : Unit, convertBody o ip op fs = Except.error e →
      (convert_tif_to_jpg o ip op fs).1 = false) := by
  rcases Bool.eq_false_or_eq_true (fsExists ip fs && o.decodeOk && o.encodeOk) with h | h
  case inr =>
    rw [convert_tif_to_jpg_neg o ip op fs h]
    refine ⟨by simp [h], by simp, fun e _ => rfl⟩
  case inl =>
    rw [convert_tif_to_jpg_pos o ip op fs h]
    refine ⟨by simp [h], fun _ => fsExists_save_self op o.encodedSize fs, fun e he => ?_⟩
    simp only [Bool.and_eq_true] at h
    simp [convertBody, h.1.1, h.1.2, h.2] at he

/-- Witness for C7 at a concrete oracle, path pair and filesystem. -/
theorem convert_tif_to_jpg_boundary_witness :
    (convert_tif_to_jpg ⟨true, true, 7⟩ "uploads/a.tif" "converted/a.jpg"
      [("uploads/a.tif", 3)]).1 = true :=
  (convert_tif_to_jpg_boundary ⟨true, true, 7⟩ "uploads/a.tif" "converted/a.jpg"
    [("uploads/a.tif", 3)]).1.mpr (by decide)

/-- Witness for C9 at a concrete stream. -/
theorem check_file_size_characterization_witness :
    (check_file_size ⟨[1, 2, 3], 2⟩).1 = true :=
  (check_file_size_characterization ⟨[1, 2, 3], 2⟩).1.mpr (by decide)

/-- Witness for C8 at a concrete filename. -/
theorem allowed_file_characterization_witness :
    allowed_file "photo.TIF" = true :=
  (allowed_file_characterization "photo.TIF").1.mpr
    ⟨['p', 'h', 'o', 't', 'o'], ['T', 'I', 'F'], by decide, by decide,
      Or.inl (by decide)⟩

end Tiff2Jpg

namespace Tiff2Jpg

/-- The staged input path of a run for a given original filename. -/
def inputPath (sec : String → String) (name : String) : String :=
  UPLOAD_FOLDER ++ "/" ++ sec name

/-- The download name of the converted file. -/
def outputFilename (sec : String → String) (name : String) : String :=
  stem (sec name) ++ ".jpg"

/-- The output artifact path of a run for a given original filename. -/
def outputPath (sec : String → String) (name : String) : String :=
  OUTPUT_FOLDER ++ "/" ++ outputFilename sec name

/-- Normal form of a valid single-file run: one explicit case split over the
oracle, with all filesystem updates spelled out. -/
lemma convert_image_valid_eq (sec : String → String) (file : UpFile)
    (o : ConvOracle) (fs0 : FS)
    (h1 : (file.filename == "") = false)
    (h2 : allowed_file file.filename = true)
    (h3 : (check_file_size ⟨file.content, file.pos⟩).1 = true) :
    convert_image sec (some file) o fs0 =
      (let ip := inputPath sec file.filename
       let op := outputPath sec file.filename
       let fs1 : FS := fsSave ip file.content.length fs0
       let fs2 : FS := fsSave op o.img.encodedSize fs1
       let fs3 : FS := fs2.filter (fun e => e.1 != ip)
       if o.saveRaises then
         (.jsonErr 500 "Internal server error",
           ⟨fs1.filter (fun e => e.1 != ip), false, [ip]⟩)
       else if o.img.decodeOk && o.img.encodeOk then
         if MAX_OUTPUT_FILE_SIZE < o.img.encodedSize then
           (.jsonErr 400
             ("Output file size (" ++ fmt1 o.img.encodedSize ++
               "MB) exceeds limit of 10.0MB"),
             ⟨fs3.filter (fun e => e.1 != op), false, [ip, op]⟩)
         else if o.sendRaises then
           (.jsonErr 500 "Internal server error", ⟨fs3, false, [ip]⟩)
         else
           (.fileOk op (outputFilename sec file.filename), ⟨fs3, false, [ip]⟩)
       else
         (.jsonErr 500 "Conversion failed",
           ⟨fs1.filter (fun e => e.1 != ip), false, [ip]⟩)) := by
  have hoi : inputPath sec file.filename ≠ outputPath sec file.filename :=
    fun h => upload_ne_output (sec file.filename) (outputFilename sec file.filename) h
  have hio : outputPath sec file.filename ≠ inputPath sec file.filename := Ne.symm hoi
  have hread : readAll (check_file_size ⟨file.content, file.pos⟩).2 = file.content :=
    (check_file_size_spec _).2.2.2
  unfold convert_image
  simp only [h1, Bool.false_eq_true, if_false, h2, Bool.not_true, h3]
  simp only [hread, inputPath, outputPath, outputFilename]
  set ip := UPLOAD_FOLDER ++ "/" ++ sec file.filename with hipdef
  set op := OUTPUT_FOLDER ++ "/" ++ (stem (sec file.filename) ++ ".jpg") with hopdef
  have hoi' : ip ≠ op := by
    rw [hipdef, hopdef]
    exact fun h => upload_ne_output (sec file.filename) (stem (sec file.filename) ++ ".jpg") h
  have hio' : op ≠ ip := Ne.symm hoi'
  set fs1 : FS := fsSave ip file.content.length fs0 with hfs1def
  have hex1 : fsExists ip fs1 = true := fsExists_save_self ip file.content.length fs0
  by_cases hsr : o.saveRaises = true
  · simp only [hsr, if_true, osSave, osRemove, hex1, Bool.or_false, Bool.not_true,
      List.nil_append]
  · simp only [hsr, Bool.false_eq_true, if_false]
    by_cases hc : (o.img.decodeOk && o.img.encodeOk) = true
    · have hconv : convert_tif_to_jpg o.img ip op (osSave ip file.content.length ⟨fs0, false, []⟩).fs
          = (true, fsSave op o.img.encodedSize fs1) := by
        have : (osSave ip file.content.length (⟨fs0, false, []⟩ : RunState)).fs = fs1 := rfl
        rw [this]
        apply convert_tif_to_jpg_pos
        simp only [hex1, Bool.true_and]
        exact hc
      rw [hconv]
      simp only [hc, if_true]
      set fs2 : FS := fsSave op o.img.encodedSize fs1 with hfs2def
      have hsz : fsSize op ((fs2.filter (fun e => e.1 != ip)) : FS) = o.img.encodedSize := by
        rw [fsSize_filter_ne hio', hfs2def, fsSize_save_self]
      simp only [osSave, osRemove, hex1, Bool.not_true, Bool.or_false, List.nil_append]
      have hex2 : fsExists ip fs2 = true := by
        rw [hfs2def, fsExists_save_ne hoi', hex1]
      simp only [hex2, Bool.not_true, Bool.or_false]
      have hexo : fsExists op fs2 = true := by
        rw [hfs2def]
        exact fsExists_save_self op o.img.encodedSize fs1
      simp [hsz, fsExists_filter_ne hio', hexo, fsExists_filter_self]
    · have hconv : convert_tif_to_jpg o.img ip op (osSave ip file.content.length ⟨fs0, false, []⟩).fs
          = (false, fs1) := by
        have : (osSave ip file.content.length (⟨fs0, false, []⟩ : RunState)).fs = fs1 := rfl
        rw [this]
        apply convert_tif_to_jpg_neg
        simp only [hex1, Bool.true_and]
        simpa using hc
      rw [hconv]
      simp only [hc, Bool.false_eq_true, if_false]
      simp [osSave, osRemove, hex1]

end Tiff2Jpg

namespace Tiff2Jpg

/-- Normal form of the processing of one valid batch file: one explicit case
split over the oracle, with all filesystem updates spelled out. -/
lemma batchStep_valid_eq (sec : String → String) (f : BFile) (st : RunState)
    (h1 : (f.filename == "") = false)
    (h2 : allowed_file f.filename = true)
    (h3 : (check_file_size ⟨f.content, f.pos⟩).1 = true) :
    batchStep sec f st =
      (let ip := inputPath sec f.filename
       let op := outputPath sec f.filename
       let fs1 : FS := fsSave ip f.content.length st.fs
       let fs2 : FS := fsSave op f.img.encodedSize fs1
       if f.saveRaises then
         ((none, some ⟨f.filename, "Processing error"⟩),
           ⟨fs1.filter (fun e => e.1 != ip), st.badRemove, st.removes ++ [ip]⟩)
       else if f.img.decodeOk && f.img.encodeOk then
         if f.img.encodedSize ≤ MAX_OUTPUT_FILE_SIZE then
           ((some ⟨f.filename, op, round2MB f.img.encodedSize⟩, none),
             ⟨fs2.filter (fun e => e.1 != ip), st.badRemove, st.removes ++ [ip]⟩)
         else
           ((none, some ⟨f.filename,
               "Output file size (" ++ fmt1 f.img.encodedSize ++ "MB) exceeds limit"⟩),
             ⟨(fs2.filter (fun e => e.1 != op)).filter (fun e => e.1 != ip),
               st.badRemove, st.removes ++ [op, ip]⟩)
       else
         ((none, some ⟨f.filename, "Conversion failed"⟩),
           ⟨fs1.filter (fun e => e.1 != ip), st.badRemove, st.removes ++ [ip]⟩)) := by
  have hread : readAll (check_file_size ⟨f.content, f.pos⟩).2 = f.content :=
    (check_file_size_spec _).2.2.2
  unfold batchStep
  simp only [h1, Bool.false_eq_true, if_false, h2, Bool.not_true, h3]
  simp only [hread, inputPath, outputPath, outputFilename]
  set ip := UPLOAD_FOLDER ++ "/" ++ sec f.filename with hipdef
  set op := OUTPUT_FOLDER ++ "/" ++ (stem (sec f.filename) ++ ".jpg") with hopdef
  have hoi' : ip ≠ op := by
    rw [hipdef, hopdef]
    exact fun h => upload_ne_output (sec f.filename) (stem (sec f.filename) ++ ".jpg") h
  have hio' : op ≠ ip := Ne.symm hoi'
  set fs1 : FS := fsSave ip f.content.length st.fs with hfs1def
  have hex1 : fsExists ip fs1 = true := fsExists_save_self ip f.content.length st.fs
  by_cases hsr : f.saveRaises = true
  · simp only [hsr, if_true, osSave, osRemove, hex1, Bool.or_false, Bool.not_true,
      List.nil_append]
  · simp only [hsr, Bool.false_eq_true, if_false]
    by_cases hc : (f.img.decodeOk && f.img.encodeOk) = true
    · have hconv : convert_tif_to_jpg f.img ip op (osSave ip f.content.length st).fs
          = (true, fsSave op f.img.encodedSize fs1) := by
        have : (osSave ip f.content.length st).fs = fs1 := rfl
        rw [this]
        apply convert_tif_to_jpg_pos
        simp only [hex1, Bool.true_and]
        exact hc
      rw [hconv]
      simp only [hc, if_true]
      set fs2 : FS := fsSave op f.img.encodedSize fs1 with hfs2def
      have hsz : fsSize op fs2 = f.img.encodedSize := by
        rw [hfs2def, fsSize_save_self]
      have hex2 : fsExists ip fs2 = true := by
        rw [hfs2def, fsExists_save_ne hoi', hex1]
      have hexo : fsExists op fs2 = true := by
        rw [hfs2def]
        exact fsExists_save_self op f.img.encodedSize fs1
      simp only [osSave, osRemove, hsz, hex2, hexo, Bool.not_true, Bool.or_false]
      by_cases hov : f.img.encodedSize ≤ MAX_OUTPUT_FILE_SIZE
      · have hov' : ¬ MAX_OUTPUT_FILE_SIZE < f.img.encodedSize := Nat.not_lt.mpr hov
        simp [hov, hov', hex2]
      · have hov' : MAX_OUTPUT_FILE_SIZE < f.img.encodedSize := Nat.not_le.mp hov
        simp [hov, hov', fsExists_filter_ne hoi', hex2, fsExists_filter_self,
          fsExists_filter_ne hio', hexo, List.append_assoc]
    · have hconv : convert_tif_to_jpg f.img ip op (osSave ip f.content.length st).fs
          = (false, fs1) := by
        have : (osSave ip f.content.length st).fs = fs1 := rfl
        rw [this]
        apply convert_tif_to_jpg_neg
        simp only [hex1, Bool.true_and]
        simpa using hc
      rw [hconv]
      simp [hc, osSave, osRemove, hex1]

end Tiff2Jpg

namespace Tiff2Jpg

lemma statusOf_jsonErr (s : Nat) (m : String) : statusOf (.jsonErr s m) = s := rfl

lemma statusOf_fileOk (p n : String) : statusOf (.fileOk p n) = 200 := rfl

/-- Claim C1, amended: validation failures (no file, empty filename, invalid
type, input size exceeded) and an oversized output yield HTTP 400 with an
error body; a failed conversion yields HTTP 500 with body
`{error: 'Conversion failed'}` (not 400 and not the generic message); an
unexpected internal failure yields HTTP 500 with
`{error: 'Internal server error'}`; everything else is the 200 success. -/
theorem convert_image_status_classification (sec : String → String)
    (req : Option UpFile) (o : ConvOracle) (fs0 : FS) :
    (statusOf (convert_image sec req o fs0).1 = 400 ↔
      (singleValid req = false ∨
        (singleValid req = true ∧ o.saveRaises = false ∧
          (o.img.decodeOk && o.img.encodeOk) = true ∧
          MAX_OUTPUT_FILE_SIZE < o.img.encodedSize)))
    ∧ ((convert_image sec req o fs0).1 = .jsonErr 500 "Conversion failed" ↔
      (singleValid req = true ∧ o.saveRaises = false ∧
        (o.img.decodeOk && o.img.encodeOk) = false))
    ∧ ((convert_image sec req o fs0).1 = .jsonErr 500 "Internal server error" ↔
      (singleValid req = true ∧
        (o.saveRaises = true ∨
          ((o.img.decodeOk && o.img.encodeOk) = true ∧
            o.img.encodedSize ≤ MAX_OUTPUT_FILE_SIZE ∧ o.sendRaises = true))))
    ∧ (statusOf (convert_image sec req o fs0).1 = 200 ↔
      (singleValid req = true ∧ o.saveRaises = false ∧
        (o.img.decodeOk && o.img.encodeOk) = true ∧
        o.img.encodedSize ≤ MAX_OUTPUT_FILE_SIZE ∧ o.sendRaises = false)) := by
  rcases req with _ | file
  · simp [convert_image, singleValid, statusOf]
  · by_cases h1 : (file.filename == "") = true
    · simp [convert_image, singleValid, statusOf, h1]
    · have h1' : (file.filename == "") = false := by simpa using h1
      by_cases h2 : allowed_file file.filename = true
      · by_cases h3 : (check_file_size ⟨file.content, file.pos⟩).1 = true
        · rw [convert_image_valid_eq sec file o fs0 h1' h2 h3]
          have hv : singleValid (some file) = true := by
            simp [singleValid, h1', h2, h3]
          by_cases hsr : o.saveRaises = true
          · simp [hsr, statusOf, hv]
          · have hsr' : o.saveRaises = false := by simpa using hsr
            by_cases hc : (o.img.decodeOk && o.img.encodeOk) = true
            · by_cases hov : MAX_OUTPUT_FILE_SIZE < o.img.encodedSize
              · have hov2 : ¬ o.img.encodedSize ≤ MAX_OUTPUT_FILE_SIZE := Nat.not_le.mpr hov
                simp [hsr', hc, hov, hov2, statusOf, hv]
              · have hov2 : o.img.encodedSize ≤ MAX_OUTPUT_FILE_SIZE := Nat.not_lt.mp hov
                by_cases hsend : o.sendRaises = true
                · simp [hsr', hc, hov, hov2, hsend, statusOf, hv]
                · have hsend' : o.sendRaises = false := by simpa using hsend
                  simp [hsr', hc, hov, hov2, hsend', statusOf, hv]
            · have hc' : (o.img.decodeOk && o.img.encodeOk) = false := by simpa using hc
              simp [hsr', hc', statusOf, hv]
        · have h3' : (check_file_size ⟨file.content, file.pos⟩).1 = false := by simpa using h3
          simp [convert_image, singleValid, statusOf, h1', h2, h3']
      · have h2' : allowed_file file.filename = false := by simpa using h2
        simp [convert_image, singleValid, statusOf, h1', h2']

/-- Counterexample to claim C1 as stated: on a valid request whose conversion
fails, the endpoint answers HTTP 500 with `{error: 'Conversion failed'}`,
not 400. -/
theorem convert_image_conversion_failed_is_500 :
    (convert_image id (some ⟨"a.tif", [0], 0⟩)
        ⟨false, ⟨false, true, 0⟩, false⟩ []).1
      = ConvResponse.jsonErr 500 "Conversion failed"
    ∧ statusOf (convert_image id (some ⟨"a.tif", [0], 0⟩)
        ⟨false, ⟨false, true, 0⟩, false⟩ []).1 ≠ 400 := by
  constructor
  · decide
  · decide

/-- Witness for C1 at a concrete successful request. -/
theorem convert_image_status_classification_witness :
    statusOf (convert_image id (some ⟨"a.tif", [0], 0⟩)
        ⟨false, ⟨true, true, 5⟩, false⟩ []).1 = 200 :=
  (convert_image_status_classification id (some ⟨"a.tif", [0], 0⟩)
      ⟨false, ⟨true, true, 5⟩, false⟩ []).2.2.2.mpr (by decide)

end Tiff2Jpg

namespace Tiff2Jpg

lemma fsExists_eq_false_of_mem (p : String) (fs : FS)
    (h : ∀ e ∈ fs, e.1 ≠ p) : fsExists p fs = false := by
  rw [fsExists, List.any_eq_false]
  intro e he
  simp [h e he]

lemma fsExists_filter_and_left (p : String) (g : String × Nat → Bool) (fs : FS) :
    fsExists p (fs.filter (fun e => (e.1 != p) && g e)) = false := by
  apply fsExists_eq_false_of_mem
  intro e he
  have hf := (List.mem_filter.mp he).2
  simp at hf
  exact hf.1

lemma fsExists_filter_and_right (p : String) (g : String × Nat → Bool) (fs : FS) :
    fsExists p (fs.filter (fun e => g e && (e.1 != p))) = false := by
  apply fsExists_eq_false_of_mem
  intro e he
  have hf := (List.mem_filter.mp he).2
  simp at hf
  exact hf.2

/-- Claim C2: in every single-file pipeline run that reaches the save step
(single-file endpoint or one file of a batch), the staged input artifact is
gone when the run returns, no `os.remove` is ever issued against an absent
path, and no path is removed twice. -/
theorem input_artifact_cleanup :
    (∀ (sec : String → String) (file : UpFile) (o : ConvOracle) (fs0 : FS),
      (file.filename == "") = false → allowed_file file.filename = true →
      (check_file_size ⟨file.content, file.pos⟩).1 = true →
      fsExists (inputPath sec file.filename)
          (convert_image sec (some file) o fs0).2.fs = false
        ∧ (convert_image sec (some file) o fs0).2.badRemove = false
        ∧ (convert_image sec (some file) o fs0).2.removes.Nodup)
    ∧ (∀ (sec : String → String) (f : BFile) (fs0 : FS),
      (f.filename == "") = false → allowed_file f.filename = true →
      (check_file_size ⟨f.content, f.pos⟩).1 = true →
      fsExists (inputPath sec f.filename)
          (batchStep sec f ⟨fs0, false, []⟩).2.fs = false
        ∧ (batchStep sec f ⟨fs0, false, []⟩).2.badRemove = false
        ∧ (batchStep sec f ⟨fs0, false, []⟩).2.removes.Nodup) := by
  constructor
  · intro sec file o fs0 h1 h2 h3
    rw [convert_image_valid_eq sec file o fs0 h1 h2 h3]
    have hoi : inputPath sec file.filename ≠ outputPath sec file.filename :=
      fun h => upload_ne_output (sec file.filename) (outputFilename sec file.filename) h
    have hio : outputPath sec file.filename ≠ inputPath sec file.filename := Ne.symm hoi
    by_cases hsr : o.saveRaises = true
    · simp [hsr, fsExists_filter_self]
    · by_cases hc : (o.img.decodeOk && o.img.encodeOk) = true
      · by_cases hov : MAX_OUTPUT_FILE_SIZE < o.img.encodedSize
        · simp [hsr, hc, hov, fsExists_filter_ne hoi, fsExists_filter_self, hoi,
            fsExists_filter_and_right, fsExists_filter_and_left]
        · by_cases hsend : o.sendRaises = true
          · simp [hsr, hc, hov, hsend, fsExists_filter_self]
          · simp [hsr, hc, hov, hsend, fsExists_filter_self]
      · simp [hsr, hc, fsExists_filter_self]
  · intro sec f fs0 h1 h2 h3
    rw [batchStep_valid_eq sec f ⟨fs0, false, []⟩ h1 h2 h3]
    have hoi : inputPath sec f.filename ≠ outputPath sec f.filename :=
      fun h => upload_ne_output (sec f.filename) (outputFilename sec f.filename) h
    by_cases hsr : f.saveRaises = true
    · simp [hsr, fsExists_filter_self]
    · by_cases hc : (f.img.decodeOk && f.img.encodeOk) = true
      · by_cases hov : f.img.encodedSize ≤ MAX_OUTPUT_FILE_SIZE
        · simp [hsr, hc, hov, fsExists_filter_self]
        · simp [hsr, hc, hov, fsExists_filter_self, Ne.symm hoi,
            fsExists_filter_and_right, fsExists_filter_and_left]
      · simp [hsr, hc, fsExists_filter_self]

/-- Witness for C2 at a concrete request and oracle. -/
theorem input_artifact_cleanup_witness :
    fsExists (inputPath id "a.tif")
        (convert_image id (some ⟨"a.tif", [0], 0⟩)
          ⟨false, ⟨true, true, 5⟩, false⟩ []).2.fs = false :=
  (input_artifact_cleanup.1 id ⟨"a.tif", [0], 0⟩ ⟨false, ⟨true, true, 5⟩, false⟩ []
    (by decide) (by decide) (by decide)).1

end Tiff2Jpg

namespace Tiff2Jpg

/-- Claim C4: when conversion succeeds but the output exceeds 10 MiB, both
endpoints delete the output artifact and record a failure whose reason
message contains the measured size (formatted as Python's `:.1f` MiB). -/
theorem oversize_output_discarded :
    (∀ (sec : String → String) (file : UpFile) (o : ConvOracle) (fs0 : FS),
      (file.filename == "") = false → allowed_file file.filename = true →
      (check_file_size ⟨file.content, file.pos⟩).1 = true →
      o.saveRaises = false → (o.img.decodeOk && o.img.encodeOk) = true →
      MAX_OUTPUT_FILE_SIZE < o.img.encodedSize →
      (convert_image sec (some file) o fs0).1
          = .jsonErr 400 ("Output file size (" ++ fmt1 o.img.encodedSize ++
              "MB) exceeds limit of 10.0MB")
        ∧ (fmt1 o.img.encodedSize).toList <:+:
            ("Output file size (" ++ fmt1 o.img.encodedSize ++
              "MB) exceeds limit of 10.0MB").toList
        ∧ fsExists (outputPath sec file.filename)
            (convert_image sec (some file) o fs0).2.fs = false)
    ∧ (∀ (sec : String → String) (f : BFile) (fs0 : FS),
      (f.filename == "") = false → allowed_file f.filename = true →
      (check_file_size ⟨f.content, f.pos⟩).1 = true →
      f.saveRaises = false → (f.img.decodeOk && f.img.encodeOk) = true →
      MAX_OUTPUT_FILE_SIZE < f.img.encodedSize →
      (batchStep sec f ⟨fs0, false, []⟩).1
          = (none, some ⟨f.filename,
              "Output file size (" ++ fmt1 f.img.encodedSize ++ "MB) exceeds limit"⟩)
        ∧ (fmt1 f.img.encodedSize).toList <:+:
            ("Output file size (" ++ fmt1 f.img.encodedSize ++
              "MB) exceeds limit").toList
        ∧ fsExists (outputPath sec f.filename)
            (batchStep sec f ⟨fs0, false, []⟩).2.fs = false) := by
  constructor
  · intro sec file o fs0 h1 h2 h3 hsr hc hov
    rw [convert_image_valid_eq sec file o fs0 h1 h2 h3]
    have hoi : inputPath sec file.filename ≠ outputPath sec file.filename :=
      fun h => upload_ne_output (sec file.filename) (outputFilename sec file.filename) h
    refine ⟨?_, ?_, ?_⟩
    · simp [hsr, hc, hov]
    · exact ⟨("Output file size (").toList, ("MB) exceeds limit of 10.0MB").toList,
        by simp [String.toList, data_append]⟩
    · simp [hsr, hc, hov, fsExists_filter_self, fsExists_filter_and_left,
        fsExists_filter_and_right]
  · intro sec f fs0 h1 h2 h3 hsr hc hov
    rw [batchStep_valid_eq sec f ⟨fs0, false, []⟩ h1 h2 h3]
    have hoi : inputPath sec f.filename ≠ outputPath sec f.filename :=
      fun h => upload_ne_output (sec f.filename) (outputFilename sec f.filename) h
    have hov' : ¬ f.img.encodedSize ≤ MAX_OUTPUT_FILE_SIZE := Nat.not_le.mpr hov
    refine ⟨?_, ?_, ?_⟩
    · simp [hsr, hc, hov']
    · exact ⟨("Output file size (").toList, ("MB) exceeds limit").toList,
        by simp [String.toList, data_append]⟩
    · simp [hsr, hc, hov', fsExists_filter_self, fsExists_filter_and_left,
        fsExists_filter_and_right, Ne.symm hoi]

/-- Witness for C4 at a concrete oversized conversion. -/
theorem oversize_output_discarded_witness :
    (convert_image id (some ⟨"a.tif", [0], 0⟩)
        ⟨false, ⟨true, true, 10485761⟩, false⟩ []).1
      = ConvResponse.jsonErr 400 ("Output file size (" ++ fmt1 10485761 ++
          "MB) exceeds limit of 10.0MB") :=
  (oversize_output_discarded.1 id ⟨"a.tif", [0], 0⟩
    ⟨false, ⟨true, true, 10485761⟩, false⟩ []
    (by decide) (by decide) (by decide) rfl rfl (by decide)).1

end Tiff2Jpg

namespace Tiff2Jpg

/-- Claim C3: the batch endpoint rejects a missing field, an empty list, and
more than 150 files before touching any file, and otherwise processes the
whole list and answers 200 exactly when at least one success was recorded. -/
theorem batch_request_gating (sec : String → String) (files : List BFile)
    (fs0 : FS) :
    (batch_convert_images sec none fs0
        = (.errJson 400 "No files provided", ⟨fs0, false, []⟩))
    ∧ (files = [] →
        batch_convert_images sec (some files) fs0
          = (.errJson 400 "No files selected", ⟨fs0, false, []⟩))
    ∧ (150 < files.length →
        batch_convert_images sec (some files) fs0
          = (.errJson 400 "Maximum 150 files allowed per batch", ⟨fs0, false, []⟩))
    ∧ (files ≠ [] → files.length ≤ 150 →
        batch_convert_images sec (some files) fs0
          = (.result
              (if (runBatch sec files ⟨fs0, false, []⟩).1.isEmpty then 400 else 200)
              (runBatch sec files ⟨fs0, false, []⟩).1
              (runBatch sec files ⟨fs0, false, []⟩).2.1,
            (runBatch sec files ⟨fs0, false, []⟩).2.2)
        ∧ (statusOfBatch (batch_convert_images sec (some files) fs0).1 = 200 ↔
            (runBatch sec files ⟨fs0, false, []⟩).1 ≠ [])) := by
  refine ⟨rfl, ?_, ?_, ?_⟩
  · intro h
    subst h
    simp [batch_convert_images]
  · intro h
    have hne : files ≠ [] := by
      intro hh
      subst hh
      simp at h
    have hemp : files.isEmpty = false := by simpa [List.isEmpty_iff] using hne
    simp [batch_convert_images, hemp, h]
  · intro hne hlen
    have hemp : files.isEmpty = false := by simpa [List.isEmpty_iff] using hne
    have hlen' : ¬ 150 < files.length := Nat.not_lt.mpr hlen
    constructor
    · simp [batch_convert_images, hemp, hlen']
    · simp only [batch_convert_images, hemp, Bool.false_eq_true, if_false, hlen']
      by_cases hr : (runBatch sec files ⟨fs0, false, []⟩).1.isEmpty = true
      · have : (runBatch sec files ⟨fs0, false, []⟩).1 = [] := by
          simpa [List.isEmpty_iff] using hr
        simp [hr, statusOfBatch, this]
      · have hr' : (runBatch sec files ⟨fs0, false, []⟩).1.isEmpty = false := by
          simpa using hr
        have : (runBatch sec files ⟨fs0, false, []⟩).1 ≠ [] := by
          simpa [List.isEmpty_iff] using hr
        simp [hr', statusOfBatch, this]

/-- Witness for C3 at the empty batch. -/
theorem batch_request_gating_witness :
    batch_convert_images id (some ([] : List BFile)) []
      = (.errJson 400 "No files selected", ⟨[], false, []⟩) :=
  (batch_request_gating id ([] : List BFile) []).2.1 rfl

end Tiff2Jpg

namespace Tiff2Jpg

/-- The outcome of processing one batch file does not depend on the run state
it starts from. -/
lemma batchStep_fst (sec : String → String) (f : BFile) (st : RunState) :
    (batchStep sec f st).1 = fileOutcome sec f := by
  unfold fileOutcome
  by_cases h1 : (f.filename == "") = true
  · simp [batchStep, h1]
  · have h1' : (f.filename == "") = false := by simpa using h1
    by_cases h2 : allowed_file f.filename = true
    · by_cases h3 : (check_file_size ⟨f.content, f.pos⟩).1 = true
      · rw [batchStep_valid_eq sec f st h1' h2 h3,
          batchStep_valid_eq sec f ⟨[], false, []⟩ h1' h2 h3]
        by_cases hsr : f.saveRaises = true
        · simp [hsr]
        · by_cases hc : (f.img.decodeOk && f.img.encodeOk) = true
          · by_cases hov : f.img.encodedSize ≤ MAX_OUTPUT_FILE_SIZE
            · simp [hsr, hc, hov]
            · simp [hsr, hc, hov]
          · simp [hsr, hc]
      · have h3' : (check_file_size ⟨f.content, f.pos⟩).1 = false := by simpa using h3
        simp [batchStep, h1', h2, h3']
    · have h2' : allowed_file f.filename = false := by simpa using h2
      simp [batchStep, h1', h2']

/-- Every file yields exactly one outcome: a success entry or a failure
entry, never both and never neither. -/
lemma fileOutcome_exactly_one (sec : String → String) (f : BFile) :
    (fileOutcome sec f).1.isSome = true ↔ (fileOutcome sec f).2 = none := by
  unfold fileOutcome
  by_cases h1 : (f.filename == "") = true
  · simp [batchStep, h1]
  · have h1' : (f.filename == "") = false := by simpa using h1
    by_cases h2 : allowed_file f.filename = true
    · by_cases h3 : (check_file_size ⟨f.content, f.pos⟩).1 = true
      · rw [batchStep_valid_eq sec f ⟨[], false, []⟩ h1' h2 h3]
        by_cases hsr : f.saveRaises = true
        · simp [hsr]
        · by_cases hc : (f.img.decodeOk && f.img.encodeOk) = true
          · by_cases hov : f.img.encodedSize ≤ MAX_OUTPUT_FILE_SIZE
            · simp [hsr, hc, hov]
            · simp [hsr, hc, hov]
          · simp [hsr, hc]
      · have h3' : (check_file_size ⟨f.content, f.pos⟩).1 = false := by simpa using h3
        simp [batchStep, h1', h2, h3']
    · have h2' : allowed_file f.filename = false := by simpa using h2
      simp [batchStep, h1', h2']

lemma runBatch_parts (sec : String → String) (files : List BFile) :
    ∀ st : RunState,
      (runBatch sec files st).1 = files.filterMap (fun f => (fileOutcome sec f).1)
      ∧ (runBatch sec files st).2.1 = files.filterMap (fun f => (fileOutcome sec f).2) := by
  induction files with
  | nil => intro st; simp [runBatch]
  | cons f rest ih =>
    intro st
    obtain ⟨ihs, ihf⟩ := ih (batchStep sec f st).2
    constructor
    · show ((batchStep sec f st).1.1.toList ++ (runBatch sec rest (batchStep sec f st).2).1) = _
      rw [ihs, batchStep_fst]
      cases h : (fileOutcome sec f).1 <;> simp [h, List.filterMap_cons]
    · show ((batchStep sec f st).1.2.toList ++ (runBatch sec rest (batchStep sec f st).2).2.1) = _
      rw [ihf, batchStep_fst]
      cases h : (fileOutcome sec f).2 <;> simp [h, List.filterMap_cons]

lemma outcome_length_sum (sec : String → String) (files : List BFile) :
    (files.filterMap (fun f => (fileOutcome sec f).1)).length
      + (files.filterMap (fun f => (fileOutcome sec f).2)).length = files.length := by
  induction files with
  | nil => rfl
  | cons f rest ih =>
    rcases hs : (fileOutcome sec f).1 with _ | s
    · rcases hf : (fileOutcome sec f).2 with _ | e
      · exfalso
        have := (fileOutcome_exactly_one sec f).mpr hf
        rw [hs] at this
        simp at this
      · simp only [List.filterMap_cons, hs, hf, List.length_cons]
        omega
    · have hf : (fileOutcome sec f).2 = none :=
        (fileOutcome_exactly_one sec f).mp (by rw [hs]; rfl)
      simp only [List.filterMap_cons, hs, hf, List.length_cons]
      omega

/-- Claim C5: in the batch loop every input file produces exactly one
outcome, appended in input order to exactly one of the two sequences, and no
failure or exception stops the processing of the remaining files. -/
theorem batch_outcome_partition (sec : String → String) (files : List BFile)
    (fs0 : FS) :
    (runBatch sec files ⟨fs0, false, []⟩).1
        = files.filterMap (fun f => (fileOutcome sec f).1)
    ∧ (runBatch sec files ⟨fs0, false, []⟩).2.1
        = files.filterMap (fun f => (fileOutcome sec f).2)
    ∧ (∀ f : BFile, (fileOutcome sec f).1.isSome = true ↔ (fileOutcome sec f).2 = none)
    ∧ (runBatch sec files ⟨fs0, false, []⟩).1.length
        + (runBatch sec files ⟨fs0, false, []⟩).2.1.length = files.length := by
  obtain ⟨hs, hf⟩ := runBatch_parts sec files ⟨fs0, false, []⟩
  refine ⟨hs, hf, fun f => fileOutcome_exactly_one sec f, ?_⟩
  rw [hs, hf]
  exact outcome_length_sum sec files

/-- Witness for C5 on a concrete two-file batch (one invalid name, one
convertible file). -/
theorem batch_outcome_partition_witness :
    (runBatch id [⟨"bad.png", [0], 0, false, ⟨true, true, 5⟩⟩,
        ⟨"a.tif", [0], 0, false, ⟨true, true, 5⟩⟩] ⟨[], false, []⟩).1.length
      + (runBatch id [⟨"bad.png", [0], 0, false, ⟨true, true, 5⟩⟩,
        ⟨"a.tif", [0], 0, false, ⟨true, true, 5⟩⟩] ⟨[], false, []⟩).2.1.length = 2 :=
  (batch_outcome_partition id _ []).2.2.2

/-- Claim C10: a batch file with an empty filename is recorded as the failure
`'Unnamed' / 'File has no name'`, with no filesystem effect, and the loop
continues with the remaining files. -/
theorem batch_unnamed_file (sec : String → String) (f : BFile) (st : RunState)
    (rest : List BFile) (h : f.filename = "") :
    batchStep sec f st = ((none, some ⟨"Unnamed", "File has no name"⟩), st)
    ∧ runBatch sec (f :: rest) st
        = ((runBatch sec rest st).1,
            FailureEntry.mk "Unnamed" "File has no name" :: (runBatch sec rest st).2.1,
            (runBatch sec rest st).2.2) := by
  have hb : (f.filename == "") = true := by simp [h]
  refine ⟨by simp [batchStep, hb], ?_⟩
  show ((batchStep sec f st).1.1.toList ++ _, (batchStep sec f st).1.2.toList ++ _, _) = _
  simp [batchStep, hb]

/-- Witness for C10 at a concrete empty-named file. -/
theorem batch_unnamed_file_witness :
    batchStep id ⟨"", [], 0, false, ⟨true, true, 0⟩⟩ ⟨[], false, []⟩
      = ((none, some ⟨"Unnamed", "File has no name"⟩), ⟨[], false, []⟩) :=
  (batch_unnamed_file id ⟨"", [], 0, false, ⟨true, true, 0⟩⟩ ⟨[], false, []⟩ [] rfl).1

end Tiff2Jpg

namespace Tiff2Jpg

lemma roundAspect_close (q : ℚ) (hq : 0 < q) (key : ℕ → ℚ) :
    |((roundAspect q key : ℕ) : ℚ) - q| < 1 := by
  have hfc : |((max (⌊q⌋.toNat) 1 : ℕ) : ℚ) - q| < 1 := by
    by_cases h1 : 1 ≤ q
    · have hf1 : (1 : ℤ) ≤ ⌊q⌋ := by
        rw [Int.le_floor]
        exact_mod_cast h1
      have hf1' : 1 ≤ ⌊q⌋.toNat := by omega
      rw [Nat.max_eq_left hf1']
      have hcast : ((⌊q⌋.toNat : ℕ) : ℚ) = ((⌊q⌋ : ℤ) : ℚ) := by
        exact_mod_cast congrArg (fun z : ℤ => (z : ℚ)) (Int.toNat_of_nonneg (by omega))
      rw [hcast, abs_sub_lt_iff]
      have hfl := Int.floor_le q
      have hflt := Int.lt_floor_add_one q
      constructor <;> linarith
    · have hq1 : q < 1 := not_le.mp h1
      have hf0 : ⌊q⌋ = 0 := by
        rw [Int.floor_eq_zero_iff]
        exact ⟨le_of_lt hq, hq1⟩
      rw [hf0]
      norm_num
      rw [abs_sub_lt_iff]
      constructor <;> linarith
  have hcc : |((max (⌈q⌉.toNat) 1 : ℕ) : ℚ) - q| < 1 := by
    have hc0 : (0 : ℤ) < ⌈q⌉ := Int.ceil_pos.mpr hq
    have hc1' : 1 ≤ ⌈q⌉.toNat := by omega
    rw [Nat.max_eq_left hc1']
    have hcast : ((⌈q⌉.toNat : ℕ) : ℚ) = ((⌈q⌉ : ℤ) : ℚ) := by
      exact_mod_cast congrArg (fun z : ℤ => (z : ℚ)) (Int.toNat_of_nonneg (by omega))
    rw [hcast, abs_sub_lt_iff]
    have hcl := Int.ceil_lt_add_one q
    have hcg := Int.le_ceil q
    constructor <;> linarith
  simp only [roundAspect]
  split
  · exact hfc
  · exact hcc

lemma roundAspect_le (q : ℚ) (B : ℕ) (hB : 1 ≤ B) (hqB : q ≤ (B : ℚ))
    (key : ℕ → ℚ) : roundAspect q key ≤ B := by
  have hcB : (⌈q⌉).toNat ≤ B := by
    rw [Int.toNat_le]
    exact_mod_cast Int.ceil_le.mpr hqB
  have hfc : (⌊q⌋).toNat ≤ (⌈q⌉).toNat := Int.toNat_le_toNat (Int.floor_le_ceil q)
  simp only [roundAspect]
  split <;> omega

/-- Claim C6: the converter leaves dimensions unchanged when the longer side
is at most 2800, and otherwise scales so the longer side is exactly 2800 and
the shorter side is within one pixel of the exact aspect-preserving value. -/
theorem convertSize_dimension_policy (w h : ℕ) (hw : 1 ≤ w) (hh : 1 ≤ h) :
    (max w h ≤ 2800 → convertSize w h = (w, h))
    ∧ (2800 < max w h →
        max (convertSize w h).1 (convertSize w h).2 = 2800
        ∧ |((min (convertSize w h).1 (convertSize w h).2 : ℕ) : ℚ)
            - 2800 * (min w h : ℚ) / (max w h : ℚ)| < 1) := by
  have hwQ : (0 : ℚ) < (w : ℚ) := by exact_mod_cast hw
  have hhQ : (0 : ℚ) < (h : ℚ) := by exact_mod_cast hh
  have h2800 : (((2800 : ℕ) : ℚ)) = (2800 : ℚ) := by norm_cast
  constructor
  · intro hm
    have hnot : ¬ 2800 < max w h := Nat.not_lt.mpr hm
    simp [convertSize, hnot]
  · intro hm
    simp only [convertSize, hm, if_true]
    simp only [thumbnailSize]
    have hnot : ¬ (w ≤ 2800 ∧ h ≤ 2800) := by
      rintro ⟨hx, hy⟩
      have : max w h ≤ 2800 := Nat.max_le.mpr ⟨hx, hy⟩
      omega
    rw [if_neg hnot]
    simp only [h2800]
    split
    case isTrue hasp =>
      have hwh : w ≤ h := by
        rw [div_self (by norm_num : (2800 : ℚ) ≠ 0), div_le_one hhQ] at hasp
        exact_mod_cast hasp
      have hQ0 : (0 : ℚ) < 2800 * ((w : ℚ) / (h : ℚ)) :=
        mul_pos (by norm_num) (div_pos hwQ hhQ)
      have hQle : (2800 : ℚ) * ((w : ℚ) / (h : ℚ)) ≤ ((2800 : ℕ) : ℚ) := by
        rw [h2800]
        have h1 : (w : ℚ) / (h : ℚ) ≤ 1 := by
          rw [div_le_one hhQ]
          exact_mod_cast hwh
        calc (2800 : ℚ) * ((w : ℚ) / (h : ℚ)) ≤ 2800 * 1 :=
              mul_le_mul_of_nonneg_left h1 (by norm_num)
          _ = 2800 := mul_one _
      have hrle := roundAspect_le _ 2800 (by norm_num) hQle
        (fun n => |(w : ℚ) / (h : ℚ) - (n : ℚ) / (2800 : ℚ)|)
      constructor
      · exact Nat.max_eq_right hrle
      · have hwhQ : (w : ℚ) ≤ (h : ℚ) := by exact_mod_cast hwh
        rw [Nat.min_eq_left hrle, min_eq_left hwhQ, max_eq_right hwhQ,
          mul_div_assoc]
        exact roundAspect_close _ hQ0 _
    case isFalse hasp =>
      have hwh : h < w := by
        rw [div_self (by norm_num : (2800 : ℚ) ≠ 0), not_le] at hasp
        rw [lt_div_iff₀ hhQ, one_mul] at hasp
        exact_mod_cast hasp
      rw [div_div_eq_mul_div]
      have hQ0 : (0 : ℚ) < 2800 * (h : ℚ) / (w : ℚ) :=
        div_pos (mul_pos (by norm_num) hhQ) hwQ
      have hQle : (2800 : ℚ) * (h : ℚ) / (w : ℚ) ≤ ((2800 : ℕ) : ℚ) := by
        rw [h2800, div_le_iff₀ hwQ]
        have hle : (h : ℚ) ≤ (w : ℚ) := by exact_mod_cast le_of_lt hwh
        nlinarith
      have hrle := roundAspect_le _ 2800 (by norm_num) hQle
        (fun n => if n = 0 then 0 else |(w : ℚ) / (h : ℚ) - (2800 : ℚ) / (n : ℚ)|)
      constructor
      · exact Nat.max_eq_left hrle
      · have hwhQ : (h : ℚ) ≤ (w : ℚ) := by exact_mod_cast le_of_lt hwh
        rw [Nat.min_eq_right hrle, min_eq_right hwhQ, max_eq_left hwhQ]
        exact roundAspect_close _ hQ0 _

/-- Witness for C6 at a 3000 by 1500 image. -/
theorem convertSize_dimension_policy_witness :
    (max 3000 1500 ≤ 2800 → convertSize 3000 1500 = (3000, 1500))
    ∧ (2800 < max 3000 1500 →
        max (convertSize 3000 1500).1 (convertSize 3000 1500).2 = 2800
        ∧ |((min (convertSize 3000 1500).1 (convertSize 3000 1500).2 : ℕ) : ℚ)
            - 2800 * (min 3000 1500 : ℚ) / (max 3000 1500 : ℚ)| < 1) :=
  convertSize_dimension_policy 3000 1500 (by decide) (by decide)

end Tiff2Jpg
